import Mathlib

set_option maxRecDepth 8000

/-!
Verification of the zaik dual-proof CSV aggregation pipeline.

Datasets and digests are modelled as `List Nat` of byte values. The guest
program (`methods/guest/src/main.rs`), the verifier binaries
(`src/bin/verifier.rs`, `src/bin/snark_verifier.rs`), the shared library
types (`src/lib.rs`) and the predicate circuit (`src/snark_circuit.rs`)
are shallowly embedded as executable Lean functions. Machine integers are
`Nat` with explicit reduction modulo `2 ^ 64` where the source wraps.
-/

/-- Truncation to a 32-bit word. -/
def w32 (x : Nat) : Nat := x % 4294967296

/-- Right rotation of a 32-bit word by `n` bits. -/
def rotr (n x : Nat) : Nat := (x >>> n) ||| w32 (x <<< (32 - n))

/-- SHA-256 Σ0. -/
def bigS0 (x : Nat) : Nat := (rotr 2 x) ^^^ (rotr 13 x) ^^^ (rotr 22 x)

/-- SHA-256 Σ1. -/
def bigS1 (x : Nat) : Nat := (rotr 6 x) ^^^ (rotr 11 x) ^^^ (rotr 25 x)

/-- SHA-256 σ0. -/
def smallS0 (x : Nat) : Nat := (rotr 7 x) ^^^ (rotr 18 x) ^^^ (x >>> 3)

/-- SHA-256 σ1. -/
def smallS1 (x : Nat) : Nat := (rotr 17 x) ^^^ (rotr 19 x) ^^^ (x >>> 10)

/-- SHA-256 choice function. -/
def chFn (e f g : Nat) : Nat := (e &&& f) ^^^ ((e ^^^ 4294967295) &&& g)

/-- SHA-256 majority function. -/
def majFn (a b c : Nat) : Nat := (a &&& b) ^^^ (a &&& c) ^^^ (b &&& c)

/-- SHA-256 round constants. -/
def shaK : List Nat :=
  [1116352408, 1899447441, 3049323471, 3921009573, 961987163,
   1508970993, 2453635748, 2870763221, 3624381080, 310598401,
   607225278, 1426881987, 1925078388, 2162078206, 2614888103,
   3248222580, 3835390401, 4022224774, 264347078, 604807628,
   770255983, 1249150122, 1555081692, 1996064986, 2554220882,
   2821834349, 2952996808, 3210313671, 3336571891, 3584528711,
   113926993, 338241895, 666307205, 773529912, 1294757372,
   1396182291, 1695183700, 1986661051, 2177026350, 2456956037,
   2730485921, 2820302411, 3259730800, 3345764771, 3516065817,
   3600352804, 4094571909, 275423344, 430227734, 506948616,
   659060556, 883997877, 958139571, 1322822218, 1537002063,
   1747873779, 1955562222, 2024104815, 2227730452, 2361852424,
   2428436474, 2756734187, 3204031479, 3329325298]

/-- Big-endian encoding of `v` into `n` bytes. -/
def beBytes : Nat → Nat → List Nat
  | 0, _ => []
  | n + 1, v => beBytes n (v / 256) ++ [v % 256]

/-- SHA-256 padding of a message to a multiple of 64 bytes. -/
def shaPad (msg : List Nat) : List Nat :=
  let l := msg.length
  let k := (64 + 56 - (l + 1) % 64) % 64
  msg ++ [128] ++ List.replicate k 0 ++ beBytes 8 (l * 8)

/-- Split a byte list into 64-byte blocks (fuel-based so the kernel can reduce it). -/
def chunk64Aux : Nat → List Nat → List (List Nat)
  | 0, _ => []
  | _, [] => []
  | fuel + 1, l => l.take 64 :: chunk64Aux fuel (l.drop 64)

/-- Split a byte list into 64-byte blocks. -/
def chunk64 (l : List Nat) : List (List Nat) := chunk64Aux (l.length + 1) l

/-- Big-endian 32-bit words of a block. -/
def beWords : List Nat → List Nat
  | b0 :: b1 :: b2 :: b3 :: rest => (((b0 * 256 + b1) * 256 + b2) * 256 + b3) :: beWords rest
  | _ => []

/-- Extend the 16-word message schedule by `n` further words. -/
def extendSchedule (w : List Nat) : Nat → List Nat
  | 0 => w
  | n + 1 =>
    let i := w.length
    let nw := w32 (smallS1 (w.getD (i - 2) 0) + w.getD (i - 7) 0 +
                   smallS0 (w.getD (i - 15) 0) + w.getD (i - 16) 0)
    extendSchedule (w ++ [nw]) n

/-- The eight 32-bit words of a SHA-256 state. -/
structure Hash8 where
  a : Nat
  b : Nat
  c : Nat
  d : Nat
  e : Nat
  f : Nat
  g : Nat
  h : Nat
deriving DecidableEq

/-- One SHA-256 compression round. -/
def compressStep (st : Hash8) (kw : Nat × Nat) : Hash8 :=
  let t1 := w32 (st.h + bigS1 st.e + chFn st.e st.f st.g + kw.1 + kw.2)
  let t2 := w32 (bigS0 st.a + majFn st.a st.b st.c)
  ⟨w32 (t1 + t2), st.a, st.b, st.c, w32 (st.d + t1), st.e, st.f, st.g⟩

/-- SHA-256 compression of a single 64-byte block. -/
def compressBlock (h0 : Hash8) (block : List Nat) : Hash8 :=
  let w := extendSchedule (beWords block) 48
  let st := (shaK.zip w).foldl compressStep h0
  ⟨w32 (h0.a + st.a), w32 (h0.b + st.b), w32 (h0.c + st.c), w32 (h0.d + st.d),
   w32 (h0.e + st.e), w32 (h0.f + st.f), w32 (h0.g + st.g), w32 (h0.h + st.h)⟩

/-- SHA-256 initial state. -/
def shaInit : Hash8 :=
  ⟨1779033703, 3144134277, 1013904242, 2773480762,
   1359893119, 2600822924, 528734635, 1541459225⟩

/-- SHA-256 digest (32 bytes) of a byte sequence. Embeds the `sha2::Sha256`
calls of the source. -/
def sha256 (msg : List Nat) : List Nat :=
  let st := (chunk64 (shaPad msg)).foldl compressBlock shaInit
  beBytes 4 st.a ++ beBytes 4 st.b ++ beBytes 4 st.c ++ beBytes 4 st.d ++
  beBytes 4 st.e ++ beBytes 4 st.f ++ beBytes 4 st.g ++ beBytes 4 st.h

/-! ## Rust string primitives used by the guest -/

/-- Inclusive split on the newline byte 10, as in Rust `str::split_inclusive` on a
newline: each piece keeps its terminating newline, and no empty final piece is
produced. -/
def splitNlIncAux : List Nat → List Nat → List (List Nat)
  | [], acc => if acc.isEmpty then [] else [acc]
  | 10 :: tl, acc => (acc ++ [10]) :: splitNlIncAux tl []
  | b :: tl, acc => splitNlIncAux tl (acc ++ [b])

/-- Inclusive split of a byte sequence on newlines. -/
def splitNlInc (d : List Nat) : List (List Nat) := splitNlIncAux d []

/-- Remove a trailing newline, and a carriage return directly before it, from one
piece — the per-line cleanup Rust `str::lines` applies. -/
def chompLine (p : List Nat) : List Nat :=
  match p.getLast? with
  | some 10 =>
    let q := p.dropLast
    match q.getLast? with
    | some 13 => q.dropLast
    | _ => q
  | _ => p

/-- Rust `str::lines` over a byte sequence: split at newlines (a final line
ending is optional), stripping a `\r` that precedes a `\n`. -/
def rustLines (d : List Nat) : List (List Nat) := (splitNlInc d).map chompLine

/-- Decimal digit test on a byte. -/
def isDigitB (b : Nat) : Bool := decide (48 ≤ b ∧ b ≤ 57)

/-- Numeric value of a list of decimal digit bytes. -/
def digitsVal (bs : List Nat) : Nat := bs.foldl (fun a b => a * 10 + (b - 48)) 0

/-- Drop one leading plus sign (byte 43), as Rust integer parsing does. -/
def stripPlus (bs : List Nat) : List Nat :=
  match bs with
  | b :: rest => if b = 43 then rest else bs
  | [] => []

/-- `2 ^ 64`, the modulus of Rust `u64` arithmetic. -/
def U64MOD : Nat := 18446744073709551616

/-- Rust `str::parse::<u64>()` on a byte sequence: an optional `+` sign followed
by one or more decimal digits whose value fits in 64 bits; anything else
(including surrounding whitespace, a minus sign, or overflow) is an error. -/
def parseU64 (bs : List Nat) : Option Nat :=
  let ds := stripPlus bs
  if ds.isEmpty then none
  else if ds.all isDigitB then
    if digitsVal ds < U64MOD then some (digitsVal ds) else none
  else none

/-- Decimal digit bytes of `n`, fuel-based (the fuel `n + 1` always suffices);
embeds Rust `u64::to_string`. -/
def natToDecimalAux : Nat → Nat → List Nat
  | 0, _ => []
  | fuel + 1, n => if n < 10 then [48 + n] else natToDecimalAux fuel (n / 10) ++ [48 + n % 10]

/-- Decimal digit bytes of `n` (canonical, no sign, no leading zeros). -/
def natToDecimal (n : Nat) : List Nat := natToDecimalAux (n + 1) n

/-! ## The guest aggregator (`methods/guest/src/main.rs`) -/

/-- Guest input: a 32-byte digest and the raw dataset bytes
(`CsvProcessingInput` of the guest). -/
structure CsvProcessingInput where
  csv_hash : List Nat
  csv_data : List Nat
deriving DecidableEq

/-- The record the guest commits to the journal (`AgentResult` of the guest).
`column_a_sum` is a `u64`, kept below `2 ^ 64`. -/
structure AgentResult where
  csv_hash : List Nat
  column_a_sum : Nat
  column_a_hash : List Nat
  entry_count : Nat
deriving DecidableEq

/-- First comma-separated field of a line: `line.split(',').next()` (always
defined, possibly empty). -/
def firstField (line : List Nat) : List Nat := line.takeWhile (fun b => b != 44)

/-- Running state of the guest loop: sum, stringified parsed values, count. -/
structure AggSt where
  sum : Nat
  values : List (List Nat)
  count : Nat
deriving DecidableEq

/-- The guest loop body for one data line: parse the first field as `u64`; on
success add it to the sum (wrapping, the release-profile semantics of `+=` the
spec documents), push its decimal string and bump the count; on failure skip. -/
def aggStep (st : AggSt) (line : List Nat) : AggSt :=
  match parseU64 (firstField line) with
  | some v => ⟨(st.sum + v) % U64MOD, st.values ++ [natToDecimal v], st.count + 1⟩
  | none => st

/-- The data lines of a dataset: all lines after the header line at index 0. -/
def dataLines (d : List Nat) : List (List Nat) := (rustLines d).drop 1

/-- The guest aggregation pass over the data lines. -/
def aggregate (d : List Nat) : AggSt := (dataLines d).foldl aggStep ⟨0, [], 0⟩

/-- The values of the aggregated column that parse successfully, in order. -/
def parsedValues (d : List Nat) : List Nat :=
  (dataLines d).filterMap (fun l => parseU64 (firstField l))

/-- The guest `main`: recompute the SHA-256 digest of the dataset and compare
with the supplied commitment — `assert_eq!` aborts the guest on mismatch,
modelled as `none` (no receipt can be produced); otherwise aggregate and commit
the `AgentResult` to the journal, with `column_a_hash` the digest of the parsed
values joined by commas. -/
def guestMain (input : CsvProcessingInput) : Option AgentResult :=
  if sha256 input.csv_data = input.csv_hash then
    let st := aggregate input.csv_data
    some ⟨input.csv_hash, st.sum, sha256 (List.intercalate [44] st.values), st.count⟩
  else none

/-! ## Shared library types (`src/lib.rs`) -/

/-- The business threshold, `pub const THRESHOLD: u64 = 1000` in `src/lib.rs`. -/
def THRESHOLD : Nat := 1000

/-- Journal schema of the CSV_PROCESSOR guest variant (`CsvProcessingOutput` in
`src/lib.rs`): hex-string hash, decimal-string sum, hex-string hash of the sum
string, and the predicate bit. Strings are byte lists. -/
structure CsvProcessingOutput where
  csv_hash : List Nat
  column_a_sum : List Nat
  sha256_sum : List Nat
  is_under_threshold : Bool
deriving DecidableEq

/-- Input schema of the CSV_PROCESSOR guest variant (`CsvProcessingInput` in
`src/lib.rs`, renamed here to avoid clashing with the guest-side struct of the
same name): hex-string hash and dataset bytes. -/
structure LibCsvProcessingInput where
  csv_hash : List Nat
  csv_data : List Nat
deriving DecidableEq

/-- Lowercase hex digit byte for a nibble. -/
def hexDigit (n : Nat) : Nat := if n < 10 then 48 + n else 87 + n

/-- Lowercase hex string (as bytes) of a byte sequence, as `format!("{:x}", …)`
renders a digest. -/
def hexOfBytes (bs : List Nat) : List Nat :=
  bs.foldr (fun b acc => hexDigit (b / 16) :: hexDigit (b % 16) :: acc) []

/-! ## Spec-worded aggregation and the modelled CSV_PROCESSOR guest -/

/-- Rust `u8::is_ascii_whitespace`: space, tab, newline, form feed, carriage
return. -/
def isAsciiWs (b : Nat) : Bool := b == 32 || b == 9 || b == 10 || b == 12 || b == 13

/-- Trim leading and trailing ASCII whitespace from a byte sequence. -/
def trimAsciiWs (bs : List Nat) : List Nat :=
  ((bs.dropWhile isAsciiWs).reverse.dropWhile isAsciiWs).reverse

/-- The per-dataset aggregation as the spec words it (§4.2 steps 2–4): for each
line after the header, split on comma, take the first field, TRIM leading and
trailing ASCII whitespace, parse as `u64`; add with wrapping on success, skip
on failure. This is a spec-worded definition, kept separate from `aggregate`
(the code's behavior) so the two can be compared. -/
def specTrimAggSum (d : List Nat) : Nat :=
  (dataLines d).foldl
    (fun s line =>
      match parseU64 (trimAsciiWs (firstField line)) with
      | some v => (s + v) % U64MOD
      | none => s) 0

/-- Modelled from the spec: the CSV_PROCESSOR guest program — the guest variant
whose journal is `CsvProcessingOutput` with the `is_under_threshold` flag — is
not in the repository snapshot; only its journal/input declarations
(`src/lib.rs`) and its callers (`src/bin/verifier.rs`, `src/bin/host.rs`,
`src/bin/snark_verifier.rs`) are. Modelled after §4.2 of the spec: recompute
and check the commitment (fatal mismatch ⇒ `none`), aggregate the first column
(trim, parse `u64`, wrapping add, skip failures), evaluate
`predicate_satisfied := sum < THRESHOLD`, and commit the result with the sum
rendered in decimal and the digests rendered in hex. -/
def csvProcessorGuest (input : LibCsvProcessingInput) : Option CsvProcessingOutput :=
  if hexOfBytes (sha256 input.csv_data) = input.csv_hash then
    let sum := specTrimAggSum input.csv_data
    some ⟨input.csv_hash, natToDecimal sum,
          hexOfBytes (sha256 (natToDecimal sum)), decide (sum < THRESHOLD)⟩
  else none

/-! ## The predicate circuit (`src/snark_circuit.rs`) -/

/-- The BN254 scalar-field modulus (order of `ark_bn254::Fr`). -/
def bn254r : Nat := 21888242871839275222246405745257275088548364400416034343698204186575808495617

/-- `Fr::from(x: u64)`: canonical representative of a 64-bit value in the
field, as a natural number below `bn254r`. -/
def frOfU64 (x : Nat) : Nat := x % bn254r

/-- `(bn254r - 1) / 2`, the bound `is_cmp` enforces on both operands. -/
def frHalf : Nat := (bn254r - 1) / 2

/-- Satisfiability of the constraints `ThresholdCheckCircuit::generate_constraints`
produces, for field elements given by their canonical representatives `s`
(private witness), `t` (public input) and the boolean public input `b`:
`FpVar::is_cmp(…, Ordering::Less, false)` enforces that both operands are at
most `(p - 1) / 2` and yields the comparison of the canonical integer
representatives, and `enforce_equal` pins `b` to that comparison. -/
def circuitSat (s t : Nat) (b : Bool) : Bool :=
  decide (s ≤ frHalf) && decide (t ≤ frHalf) && (b == decide (s < t))

/-! ## The SNARK prover/verifier glue (`src/snark_prover.rs`) -/

/-- Modelled from the spec: a Groth16 proof object. The Groth16 backend is the
external `ark-groth16` library, not code of this repository; per §4.5 a proof
is bound to the verifying key and the public inputs it was created for, so the
idealised proof object records the instantiated statement (public inputs as
field representatives) together with the witness assignment. -/
structure SnarkProof where
  wit_sum : Nat
  pub_threshold : Nat
  pub_bit : Bool
deriving DecidableEq

namespace SnarkProver

/-- `SnarkProver::prove`: builds `ThresholdCheckCircuit` with witness
`Fr::from(sum)`, public inputs `Fr::from(threshold)` and the constant boolean,
and calls Groth16 proving. Modelled from the spec for the external backend:
prove fails (`PROVING_ERROR`, here `none`) iff the assignment does not satisfy
the circuit; otherwise the proof records the instantiated statement. -/
def prove (sum threshold : Nat) (is_under_threshold : Bool) : Option SnarkProof :=
  if circuitSat (frOfU64 sum) (frOfU64 threshold) is_under_threshold then
    some ⟨frOfU64 sum, frOfU64 threshold, is_under_threshold⟩
  else none

/-- `SnarkProver::verify`: checks the proof against public inputs
`[Fr::from(threshold), b ? 1 : 0]`. Modelled from the spec for the external
backend: returns true iff the proof is a valid proof of the statement
instantiated with these public inputs, i.e. its recorded statement matches and
its witness satisfies the circuit. -/
def verify (proof : SnarkProof) (threshold : Nat) (is_under_threshold : Bool) : Bool :=
  decide (proof.pub_threshold = frOfU64 threshold) &&
  (proof.pub_bit == is_under_threshold) &&
  circuitSat proof.wit_sum proof.pub_threshold proof.pub_bit

end SnarkProver

/-! ## The verifier binaries (`src/bin/verifier.rs`, `src/bin/snark_verifier.rs`) -/

/-- Rejection reasons, named by the spec taxonomy (§7). -/
inductive RejectReason where
  | executionInvalid
  | journalMalformed
  | internalInconsistency
  | predicateInvalid
deriving DecidableEq

/-- The verifier decision record: `accept_task`, `conditional_accept_task`, or
`reject_task` with the spec taxonomy label. -/
inductive Decision where
  | accept
  | conditionalAccept
  | reject (reason : RejectReason)
deriving DecidableEq

/-- `main` of `src/bin/verifier.rs` from the point the receipt and journal are
in hand: `receiptOk` abstracts `receipt.verify(CSV_PROCESSOR_ID)` succeeding and
`journal` the decoded `CsvProcessingOutput` (`none` when decoding fails); a
failed gate or a failed sum parse propagates as an error (`none`) through `?`.
On the happy path: recompute `expected := sum < THRESHOLD` and compare with the
journal bit — equal bits accept (or conditionally accept), differing bits
reject with the internal-inconsistency reason. -/
def verifierMain (receiptOk : Bool) (journal : Option CsvProcessingOutput) : Option Decision :=
  if receiptOk then
    match journal with
    | some output =>
      match parseU64 output.column_a_sum with
      | some sum_value =>
        some (if output.is_under_threshold == decide (sum_value < THRESHOLD) then
                if output.is_under_threshold then Decision.accept else Decision.conditionalAccept
              else Decision.reject RejectReason.internalInconsistency)
      | none => none
    | none => none
  else none

/-- `main` of `src/bin/snark_verifier.rs` from the point the receipt and
journal are in hand: after the receipt gate and journal decode, generate the
predicate SNARK for `(sum, THRESHOLD, journal bit)` (a proving error propagates
through `?`), verify it against public inputs `(THRESHOLD, journal bit)`, and
decide: verified and bit set → accept; verified and bit clear → conditional
accept; not verified → reject with the predicate-invalid reason. -/
def snarkVerifierMain (receiptOk : Bool) (journal : Option CsvProcessingOutput) : Option Decision :=
  if receiptOk then
    match journal with
    | some output =>
      match parseU64 output.column_a_sum with
      | some sum_value =>
        match SnarkProver.prove sum_value THRESHOLD output.is_under_threshold with
        | some proof =>
          some (if SnarkProver.verify proof THRESHOLD output.is_under_threshold then
                  if output.is_under_threshold then Decision.accept else Decision.conditionalAccept
                else Decision.reject RejectReason.predicateInvalid)
        | none => none
      | none => none
    | none => none
  else none

/-! ## Concrete datasets and results used as witnesses -/

/-- Scenario S4 dataset: header, rows `500,x,y`, `abc,x,y`, `499,x,y`. -/
def s4data : List Nat := [99, 111, 108, 117, 109, 110, 95, 97, 44, 98, 44, 99, 10, 53, 48, 48, 44, 120, 44, 121, 10, 97, 98, 99, 44, 120, 44, 121, 10, 52, 57, 57, 44, 120, 44, 121]

/-- Dataset with a whitespace-padded first field: header, rows ` 500,x,y`,
`499,x,y`. -/
def wsData : List Nat := [99, 111, 108, 117, 109, 110, 95, 97, 44, 98, 44, 99, 10, 32, 53, 48, 48, 44, 120, 44, 121, 10, 52, 57, 57, 44, 120, 44, 121]

/-- Dataset whose column sum overflows 64 bits: header, rows
`18446744073709551615,x,y`, `1,x,y`. -/
def ovData : List Nat := [99, 111, 108, 117, 109, 110, 95, 97, 44, 98, 44, 99, 10, 49, 56, 52, 52, 54, 55, 52, 52, 48, 55, 51, 55, 48, 57, 53, 53, 49, 54, 49, 53, 44, 120, 44, 121, 10, 49, 44, 120, 44, 121]

/-- Dataset with one data row `100,x,y`. -/
def oneRow : List Nat := [99, 111, 108, 117, 109, 110, 95, 97, 44, 98, 44, 99, 10, 49, 48, 48, 44, 120, 44, 121]

/-- Dataset consisting of the header line only. -/
def hdrOnly : List Nat := [99, 111, 108, 117, 109, 110, 95, 97, 44, 99, 111, 108, 117, 109, 110, 95, 98, 44, 99, 111, 108, 117, 109, 110, 95, 99]

/-- The bytes of `499`. -/
def b499 : List Nat := [52, 57, 57]

/-- The bytes of `100`. -/
def b100 : List Nat := [49, 48, 48]

/-- The bytes of `500`. -/
def b500 : List Nat := [53, 48, 48]

/-- The bytes of `1000`. -/
def b1000 : List Nat := [49, 48, 48, 48]

/-- The bytes of `500,499` (the joined parsed values of S4). -/
def s4join : List Nat := [53, 48, 48, 44, 52, 57, 57]

/-- The bytes of `18446744073709551615,1`. -/
def ovJoin : List Nat := [49, 56, 52, 52, 54, 55, 52, 52, 48, 55, 51, 55, 48, 57, 53, 53, 49, 54, 49, 53, 44, 49]

/-- The guest result on `wsData`: the padded field ` 500` fails to parse and is
skipped, leaving sum 499 and one entry. -/
def wsRes : AgentResult := ⟨sha256 wsData, 499, sha256 b499, 1⟩

/-- The guest result on `s4data`. -/
def s4Res : AgentResult := ⟨sha256 s4data, 999, sha256 s4join, 2⟩

/-- The guest result on `ovData`: the wrapped sum is 0. -/
def ovRes : AgentResult := ⟨sha256 ovData, 0, sha256 ovJoin, 2⟩

/-- The guest result on `oneRow`. -/
def oneRowRes : AgentResult := ⟨sha256 oneRow, 100, sha256 b100, 1⟩

/-- The modelled CSV_PROCESSOR guest result on `oneRow`. -/
def csvOut1 : CsvProcessingOutput :=
  ⟨hexOfBytes (sha256 oneRow), natToDecimal 100, hexOfBytes (sha256 (natToDecimal 100)), true⟩

/-- A tampered journal (scenario S5): sum `500` but predicate bit false. -/
def tamperedOut : CsvProcessingOutput := ⟨[], b500, [], false⟩

/-- An honest journal at the boundary: sum `1000`, predicate bit false. -/
def boundaryOut : CsvProcessingOutput := ⟨[], b1000, [], false⟩

/-! ## Helper lemmas -/

/-- A successfully parsed `u64` value is below `2 ^ 64`. -/
theorem parseU64_lt {bs : List Nat} {v : Nat} (h : parseU64 bs = some v) : v < U64MOD := by
  unfold parseU64 at h
  by_cases h1 : (stripPlus bs).isEmpty
  · simp [h1] at h
  · by_cases h2 : (stripPlus bs).all isDigitB
    · by_cases h3 : digitsVal (stripPlus bs) < U64MOD
      · simp [h1, h2, h3] at h
        omega
      · simp [h1, h2, h3] at h
    · simp [h1, h2] at h

/-- Unfolding the guest loop: the state after folding `aggStep` over a list of
lines is determined by the successfully parsed first fields. -/
theorem foldl_aggStep (xs : List (List Nat)) (st : AggSt) :
    xs.foldl aggStep st =
      ⟨(xs.filterMap (fun l => parseU64 (firstField l))).foldl
          (fun s v => (s + v) % U64MOD) st.sum,
       st.values ++ (xs.filterMap (fun l => parseU64 (firstField l))).map natToDecimal,
       st.count + (xs.filterMap (fun l => parseU64 (firstField l))).length⟩ := by
  induction xs generalizing st with
  | nil => simp
  | cons x xs ih =>
    simp only [List.foldl_cons, List.filterMap_cons]
    cases hx : parseU64 (firstField x) with
    | none => rw [ih]; simp [aggStep, hx]
    | some v =>
      rw [ih]
      simp [aggStep, hx, List.append_assoc]
      omega

/-- Folding wrapping addition computes the sum modulo `2 ^ 64`. -/
theorem foldl_wrap_eq (vs : List Nat) (a : Nat) :
    vs.foldl (fun s v => (s + v) % U64MOD) (a % U64MOD) = (a + vs.sum) % U64MOD := by
  induction vs generalizing a with
  | nil => simp
  | cons v vs ih =>
    simp only [List.foldl_cons, List.sum_cons]
    rw [Nat.mod_add_mod, ih (a + v), Nat.add_assoc]

/-- The guest sum is the wrapped sum of the parsed values. -/
theorem aggregate_sum (d : List Nat) :
    (aggregate d).sum = (parsedValues d).sum % U64MOD := by
  unfold aggregate parsedValues
  rw [foldl_aggStep]
  have h := foldl_wrap_eq ((dataLines d).filterMap fun l => parseU64 (firstField l)) 0
  simp only [Nat.zero_mod, Nat.zero_add] at h
  exact h

/-- The guest value list is the decimal rendering of the parsed values and the
entry count is their number. -/
theorem aggregate_values_count (d : List Nat) :
    (aggregate d).values = (parsedValues d).map natToDecimal ∧
    (aggregate d).count = (parsedValues d).length := by
  unfold aggregate parsedValues
  rw [foldl_aggStep]
  simp

/-- Folding the spec-worded trim-and-parse step equals folding over the list of
values it extracts. -/
theorem foldl_trimStep (xs : List (List Nat)) (a : Nat) :
    xs.foldl (fun s line =>
        match parseU64 (trimAsciiWs (firstField line)) with
        | some v => (s + v) % U64MOD
        | none => s) a
      = (xs.filterMap (fun l => parseU64 (trimAsciiWs (firstField l)))).foldl
          (fun s v => (s + v) % U64MOD) a := by
  induction xs generalizing a with
  | nil => rfl
  | cons x xs ih => cases hx : parseU64 (trimAsciiWs (firstField x)) <;> simp [hx, ih]

/-- The spec-worded aggregation stays below `2 ^ 64`. -/
theorem specTrimAggSum_lt (d : List Nat) : specTrimAggSum d < U64MOD := by
  unfold specTrimAggSum
  rw [foldl_trimStep]
  have h := foldl_wrap_eq
    ((dataLines d).filterMap fun l => parseU64 (trimAsciiWs (firstField l))) 0
  simp only [Nat.zero_mod, Nat.zero_add] at h
  rw [h]
  exact Nat.mod_lt _ (by decide)

/-- Appending one digit multiplies the value by ten. -/
theorem digitsVal_append_one (xs : List Nat) (x : Nat) :
    digitsVal (xs ++ [x]) = digitsVal xs * 10 + (x - 48) := by
  unfold digitsVal
  rw [List.foldl_append]
  rfl

/-- With enough fuel, `natToDecimalAux` renders a nonempty all-digit string
whose value is the input. -/
theorem natToDecimalAux_spec (fuel : Nat) :
    ∀ n, n < 10 ^ fuel → 0 < fuel →
      ∃ d ds, natToDecimalAux fuel n = d :: ds ∧ 48 ≤ d ∧ d ≤ 57 ∧
        (d :: ds).all isDigitB = true ∧ digitsVal (d :: ds) = n := by
  induction fuel with
  | zero => intro n _ h0; exact absurd h0 (by decide)
  | succ fuel ih =>
    intro n h _
    by_cases hn : n < 10
    · refine ⟨48 + n, [], ?_, by omega, by omega, ?_, ?_⟩
      · simp [natToDecimalAux, hn]
      · simp [isDigitB]; omega
      · simp [digitsVal]
    · have h10 : 10 ≤ n := Nat.not_lt.mp hn
      have hf : 0 < fuel := by
        rcases Nat.eq_zero_or_pos fuel with h0 | h0
        · subst h0; simp at h; omega
        · exact h0
      have hdiv : n / 10 < 10 ^ fuel := by
        rw [Nat.pow_succ, Nat.mul_comm] at h
        exact Nat.div_lt_of_lt_mul h
      obtain ⟨d, ds, heq, hd1, hd2, hall, hval⟩ := ih (n / 10) hdiv hf
      refine ⟨d, ds ++ [48 + n % 10], ?_, hd1, hd2, ?_, ?_⟩
      · simp [natToDecimalAux, hn, heq]
      · have h9 : n % 10 < 10 := Nat.mod_lt _ (by omega)
        rw [show d :: (ds ++ [48 + n % 10]) = (d :: ds) ++ [48 + n % 10] by rfl]
        rw [List.all_append]
        simp only [hall, Bool.true_and, List.all_cons, List.all_nil, Bool.and_true]
        simp [isDigitB]
        omega
      · rw [show d :: (ds ++ [48 + n % 10]) = (d :: ds) ++ [48 + n % 10] by rfl]
        rw [digitsVal_append_one, hval]
        omega

/-- Decimal round trip: parsing the decimal rendering of a `u64` value
recovers the value. -/
theorem parseU64_natToDecimal (n : Nat) (h : n < U64MOD) :
    parseU64 (natToDecimal n) = some n := by
  have hp : n < 10 ^ (n + 1) :=
    lt_of_lt_of_le (Nat.lt_pow_self (by decide) n)
      (Nat.pow_le_pow_right (by decide) (Nat.le_succ n))
  obtain ⟨d, ds, heq, hd1, hd2, hall, hval⟩ :=
    natToDecimalAux_spec (n + 1) n hp (Nat.succ_pos n)
  unfold natToDecimal
  rw [heq]
  have hstrip : stripPlus (d :: ds) = d :: ds := by
    unfold stripPlus
    simp [show d ≠ 43 by omega]
  unfold parseU64
  rw [hstrip]
  simp [hall, hval, h]

/-- For 64-bit values, satisfiability of the circuit instance pins the public
bit to the unsigned comparison of the pre-images. -/
theorem circuitSat_u64_iff (s t : Nat) (hs : s < U64MOD) (ht : t < U64MOD) (b : Bool) :
    (circuitSat (frOfU64 s) (frOfU64 t) b = true) ↔ b = decide (s < t) := by
  have hsr : frOfU64 s = s := Nat.mod_eq_of_lt (lt_trans hs (by decide))
  have htr : frOfU64 t = t := Nat.mod_eq_of_lt (lt_trans ht (by decide))
  have hsh : s ≤ frHalf := le_trans (Nat.le_of_lt hs) (by decide)
  have hth : t ≤ frHalf := le_trans (Nat.le_of_lt ht) (by decide)
  simp [circuitSat, hsr, htr, hsh, hth]

/-! ## Claim theorems -/

/-- C2: for all byte sequences `D` and `Dp`, the guest run with input
`(sha256 Dp, D)` succeeds iff `Dp = D` (given that the two digests collide only
on equal inputs, the collision-resistance idealisation of SHA-256): the guest
recomputes the digest of the dataset bytes and aborts fatally — producing no
journal, so the prover can produce no receipt — exactly when the recomputed
digest differs from the supplied commitment. -/
theorem guest_commitment_binding (D Dp : List Nat)
    (hcoll : sha256 Dp = sha256 D → Dp = D) :
    ((guestMain ⟨sha256 Dp, D⟩).isSome = true ↔ Dp = D) ∧
    (∀ c, (guestMain ⟨c, D⟩).isSome = true ↔ sha256 D = c) := by
  have hgen : ∀ c, (guestMain ⟨c, D⟩).isSome = true ↔ sha256 D = c := by
    intro c
    unfold guestMain
    by_cases h : sha256 D = c <;> simp [h]
  refine ⟨?_, hgen⟩
  rw [hgen (sha256 Dp)]
  constructor
  · intro h
    exact hcoll h.symm
  · intro h
    subst h
    rfl

/-- Witness for C2: the guest succeeds on a matching commitment over the empty
dataset and aborts when the commitment is the digest of different bytes. -/
theorem guest_commitment_binding_witness :
    (guestMain ⟨sha256 [], []⟩).isSome = true ∧
    (guestMain ⟨sha256 [50], []⟩).isSome = false := by
  constructor
  · exact ((guest_commitment_binding [] [] fun _ => rfl).1).mpr rfl
  · have h := (guest_commitment_binding [] [] fun _ => rfl).2 (sha256 [50])
    cases hb : (guestMain ⟨sha256 [50], []⟩).isSome
    · rfl
    · exact absurd (h.mp hb) (by decide)

/-- C8: the guest's running sum is wrapping unsigned 64-bit addition — every
committed sum equals the sum of the successfully parsed first-column values
reduced modulo `2 ^ 64` (and the guest does not abort on overflow). -/
theorem guest_sum_wrapping (D c : List Nat) (r : AgentResult)
    (h : guestMain ⟨c, D⟩ = some r) :
    r.column_a_sum = (parsedValues D).sum % U64MOD := by
  rw [guestMain] at h
  split at h
  · rw [← Option.some.inj h]
    exact aggregate_sum D
  · exact absurd h (by simp)

/-- Witness for C8: on the dataset with rows `18446744073709551615` and `1`
the guest succeeds and commits the wrapped sum `0`. -/
theorem guest_sum_wrapping_witness :
    guestMain ⟨sha256 ovData, ovData⟩ = some ovRes ∧
    ovRes.column_a_sum = (parsedValues ovData).sum % U64MOD ∧
    ovRes.column_a_sum = 0 :=
  ⟨by decide, guest_sum_wrapping ovData (sha256 ovData) ovRes (by decide), rfl⟩

/-- C9: the guest is deterministic — its embedding is a pure function of the
single input read from the zkVM input channel, so any two runs on the same
input commit identical journal contents. -/
theorem guest_deterministic (input : CsvProcessingInput) (r1 r2 : AgentResult)
    (h1 : guestMain input = some r1) (h2 : guestMain input = some r2) : r1 = r2 :=
  Option.some.inj (h1.symm.trans h2)

/-- Witness for C9: two runs on the one-row dataset commit the same result. -/
theorem guest_deterministic_witness :
    guestMain ⟨sha256 oneRow, oneRow⟩ = some oneRowRes ∧ oneRowRes = oneRowRes :=
  ⟨by decide,
   guest_deterministic ⟨sha256 oneRow, oneRow⟩ oneRowRes oneRowRes (by decide) (by decide)⟩

/-- C10: on a dataset with a matching commitment and no parseable data row
(header only, or all rows unparseable), the guest succeeds and commits sum 0,
entry count 0, and `column_a_hash` equal to the SHA-256 digest of the empty
string. -/
theorem guest_empty_aggregate (D : List Nat) (h : parsedValues D = []) :
    guestMain ⟨sha256 D, D⟩ = some ⟨sha256 D, 0, sha256 [], 0⟩ := by
  rw [guestMain]
  rw [if_pos rfl]
  unfold aggregate
  rw [foldl_aggStep]
  unfold parsedValues at h
  rw [h]
  simp [List.intercalate]

/-- Witness for C10: the header-only dataset yields the empty aggregate. -/
theorem guest_empty_aggregate_witness :
    guestMain ⟨sha256 hdrOnly, hdrOnly⟩ = some ⟨sha256 hdrOnly, 0, sha256 [], 0⟩ :=
  guest_empty_aggregate hdrOnly (by decide)

/-- C7 counterexample: the claim says the guest trims leading/trailing ASCII
whitespace from the first field before parsing. On the dataset whose second
line starts with ` 500`, the guest (which parses the raw field) skips that row
and commits sum 499 with one entry, while the trim-then-parse reading of the
spec yields 999 — so the guest does not trim. -/
theorem guest_no_trim_counterexample :
    guestMain ⟨sha256 wsData, wsData⟩ = some wsRes ∧
    wsRes.column_a_sum = 499 ∧
    specTrimAggSum wsData = 999 ∧
    wsRes.column_a_sum ≠ specTrimAggSum wsData :=
  ⟨by decide, rfl, by decide, by decide⟩

/-- C7 (amended): for every data line after the header, the guest splits on
comma, takes the first field and parses it directly as `u64` with no
whitespace trimming — whitespace-padded fields fail to parse and are skipped
silently, as is any other unparseable field, without aborting; the scenario S4
dataset yields sum 999 with the unparseable middle row skipped. -/
theorem guest_field_parse_no_trim :
    (∀ D : List Nat, (aggregate D).sum =
      ((dataLines D).filterMap (fun l => parseU64 (firstField l))).foldl
        (fun s v => (s + v) % U64MOD) 0) ∧
    guestMain ⟨sha256 s4data, s4data⟩ = some s4Res ∧
    s4Res.column_a_sum = 999 ∧ s4Res.entry_count = 2 := by
  refine ⟨?_, by decide, rfl, rfl⟩
  intro D
  unfold aggregate
  rw [foldl_aggStep]

/-- C3: on the happy path of `src/bin/verifier.rs` (receipt verified, journal
decoded, sum parsed), the decision is the internal-inconsistency rejection
exactly when the journal's predicate bit disagrees with the strict unsigned
comparison `sum < THRESHOLD`; on disagreement the verifier never accepts. -/
theorem verifier_internal_inconsistency (output : CsvProcessingOutput) (sum_value : Nat)
    (h : parseU64 output.column_a_sum = some sum_value) :
    (verifierMain true (some output) =
        some (Decision.reject RejectReason.internalInconsistency)
      ↔ output.is_under_threshold ≠ decide (sum_value < THRESHOLD)) ∧
    ((verifierMain true (some output) = some Decision.accept ∨
      verifierMain true (some output) = some Decision.conditionalAccept) →
      output.is_under_threshold = decide (sum_value < THRESHOLD)) := by
  simp only [verifierMain, if_true, h]
  cases hbit : output.is_under_threshold <;>
    cases hd : decide (sum_value < THRESHOLD) <;> simp

/-- Witness for C3: the tampered scenario-S5 journal (sum 500, bit false) is
rejected with the internal-inconsistency reason. -/
theorem verifier_internal_inconsistency_witness :
    parseU64 tamperedOut.column_a_sum = some 500 ∧
    verifierMain true (some tamperedOut) =
      some (Decision.reject RejectReason.internalInconsistency) :=
  ⟨by decide,
   (verifier_internal_inconsistency tamperedOut 500 (by decide)).1.mpr (by decide)⟩

/-- C4: in `src/bin/snark_verifier.rs`, once the receipt verifies, the journal
decodes, and the predicate proof for the journal's (honest) bit is generated
and verified, the decision is accept when the bit is set and conditional
accept otherwise; at the boundary `sum = 1000` the strict comparison makes the
honest bit false, so the decision is conditional accept. -/
theorem snark_verifier_decision (output : CsvProcessingOutput) (sum_value : Nat)
    (h : parseU64 output.column_a_sum = some sum_value)
    (hb : output.is_under_threshold = decide (sum_value < THRESHOLD)) :
    snarkVerifierMain true (some output) =
      some (if output.is_under_threshold then Decision.accept
            else Decision.conditionalAccept) ∧
    (sum_value = 1000 → snarkVerifierMain true (some output) =
      some Decision.conditionalAccept) := by
  have hs : sum_value < U64MOD := parseU64_lt h
  have ht : THRESHOLD < U64MOD := by decide
  have hsat : circuitSat (frOfU64 sum_value) (frOfU64 THRESHOLD)
      output.is_under_threshold = true :=
    (circuitSat_u64_iff sum_value THRESHOLD hs ht output.is_under_threshold).mpr hb
  have hmain : snarkVerifierMain true (some output) =
      some (if output.is_under_threshold then Decision.accept
            else Decision.conditionalAccept) := by
    simp only [snarkVerifierMain, if_true, h]
    rw [SnarkProver.prove, if_pos hsat]
    simp [SnarkProver.verify, hsat]
  refine ⟨hmain, ?_⟩
  intro h1000
  subst h1000
  rw [hmain, hb]
  rfl

/-- Witness for C4: the honest boundary journal with sum 1000 and bit false is
conditionally accepted. -/
theorem snark_verifier_decision_witness :
    parseU64 boundaryOut.column_a_sum = some 1000 ∧
    snarkVerifierMain true (some boundaryOut) = some Decision.conditionalAccept :=
  ⟨by decide, (snark_verifier_decision boundaryOut 1000 (by decide) (by decide)).2 rfl⟩

/-- C5: for 64-bit values `s` (witness) and `t` (public input), the circuit
instance is satisfiable with public bit `b` exactly when `b` equals the
unsigned 64-bit strict comparison `s < t`; in particular `s = t` forces
`b = false`, `s = 0` with `0 < t` forces `b = true`, and `t = 0` forces
`b = false`. -/
theorem circuit_sat_characterisation (s t : Nat) (hs : s < U64MOD) (ht : t < U64MOD)
    (b : Bool) :
    (circuitSat (frOfU64 s) (frOfU64 t) b = true ↔ b = decide (s < t)) ∧
    (s = t → (circuitSat (frOfU64 s) (frOfU64 t) b = true ↔ b = false)) ∧
    (s = 0 → 0 < t → (circuitSat (frOfU64 s) (frOfU64 t) b = true ↔ b = true)) ∧
    (t = 0 → (circuitSat (frOfU64 s) (frOfU64 t) b = true ↔ b = false)) := by
  have hmain := circuitSat_u64_iff s t hs ht b
  refine ⟨hmain, ?_, ?_, ?_⟩
  · intro hst
    subst hst
    simpa using hmain
  · intro hs0 ht0
    subst hs0
    rw [hmain]
    simp [ht0]
  · intro ht0
    subst ht0
    simpa using hmain

/-- Witness for C5: at the boundary `s = t = 1000` the only satisfying bit is
false. -/
theorem circuit_sat_characterisation_witness :
    circuitSat (frOfU64 1000) (frOfU64 1000) false = true :=
  ((circuit_sat_characterisation 1000 1000 (by decide) (by decide) false).2.1 rfl).mpr rfl

/-- C6: round trip of the predicate SNARK — for all 64-bit `s` and `t`,
proving with the honest bit `b = (s < t)` succeeds and yields a proof that
verifies against public inputs `(t, b)` (in the idealised model of the Groth16
backend in which verification holds iff the proof proves the instantiated
statement). -/
theorem snark_round_trip (s t : Nat) (hs : s < U64MOD) (ht : t < U64MOD) :
    SnarkProver.prove s t (decide (s < t)) =
      some ⟨frOfU64 s, frOfU64 t, decide (s < t)⟩ ∧
    SnarkProver.verify ⟨frOfU64 s, frOfU64 t, decide (s < t)⟩ t (decide (s < t)) = true := by
  have hsat : circuitSat (frOfU64 s) (frOfU64 t) (decide (s < t)) = true :=
    (circuitSat_u64_iff s t hs ht _).mpr rfl
  constructor
  · rw [SnarkProver.prove, if_pos hsat]
  · simp [SnarkProver.verify, hsat]

/-- Witness for C6: the repository's own test case `s = 500`, `t = 1000`. -/
theorem snark_round_trip_witness :
    SnarkProver.prove 500 1000 (decide (500 < 1000)) =
      some ⟨frOfU64 500, frOfU64 1000, decide (500 < 1000)⟩ ∧
    SnarkProver.verify ⟨frOfU64 500, frOfU64 1000, decide (500 < 1000)⟩ 1000
      (decide (500 < 1000)) = true :=
  snark_round_trip 500 1000 (by decide) (by decide)

/-- C1: every journal the (spec-modelled) CSV_PROCESSOR guest commits carries a
predicate flag consistent with its sum — the committed decimal sum string
parses back to the aggregated sum and `is_under_threshold` equals the strict
comparison of that sum against the compile-time threshold, which is 1000. -/
theorem csv_guest_predicate_consistent (input : LibCsvProcessingInput)
    (out : CsvProcessingOutput) (h : csvProcessorGuest input = some out) :
    parseU64 out.column_a_sum = some (specTrimAggSum input.csv_data) ∧
    out.is_under_threshold = decide (specTrimAggSum input.csv_data < THRESHOLD) ∧
    THRESHOLD = 1000 := by
  rw [csvProcessorGuest] at h
  split at h
  · rw [← Option.some.inj h]
    exact ⟨parseU64_natToDecimal _ (specTrimAggSum_lt input.csv_data), rfl, rfl⟩
  · exact absurd h (by simp)

/-- Witness for C1: the modelled guest on the one-row dataset commits sum 100
with the predicate flag set. -/
theorem csv_guest_predicate_consistent_witness :
    csvProcessorGuest ⟨hexOfBytes (sha256 oneRow), oneRow⟩ = some csvOut1 ∧
    parseU64 csvOut1.column_a_sum = some (specTrimAggSum oneRow) ∧
    csvOut1.is_under_threshold = decide (specTrimAggSum oneRow < THRESHOLD) :=
  ⟨by decide,
   (csv_guest_predicate_consistent ⟨hexOfBytes (sha256 oneRow), oneRow⟩ csvOut1
     (by decide)).1,
   (csv_guest_predicate_consistent ⟨hexOfBytes (sha256 oneRow), oneRow⟩ csvOut1
     (by decide)).2.1⟩
